import Mathlib

/-!
Shallow embedding of the `robicode/version` Go repository.

The `GoVersion` namespace embeds the `version` package
(src/unnamed/part_000); the `GoReq` namespace embeds the `requirement`
package (src/unnamed/part_001, lines 906-1197; the copy in
src/requirement/requirement.go is an earlier revision of the same
package, differing in the operator-token order, in `parse` and in
`HasNone`).

Machine integers are idealized as `Nat`: `strconv.Atoi` is modelled as an
exact decimal parse, which agrees with Go on every segment shorter than
nineteen digits (Go clamps on 64-bit overflow); all concrete inputs used
below are far below that bound.
-/

namespace GoVersion

/-- Character class of the Go regexp escape `\s` in RE2: tab, newline,
form feed, carriage return, space. -/
def isGoSpace (c : Char) : Bool :=
  c == ' ' || c == '\t' || c == '\n' || c == Char.ofNat 12 || c == '\r'

/-- Character class `[0-9]`. -/
def isDigitChar (c : Char) : Bool :=
  '0' ≤ c && c ≤ '9'

/-- Character class `[a-zA-Z]`. -/
def isAlphaChar (c : Char) : Bool :=
  ('a' ≤ c && c ≤ 'z') || ('A' ≤ c && c ≤ 'Z')

/-- Character class `[0-9a-zA-Z]`. -/
def isAlnumChar (c : Char) : Bool :=
  isDigitChar c || isAlphaChar c

/-- Split a character list on a separator character; the result always has
one more chunk than there are separators (so chunks may be empty). -/
def splitOnChar (sep : Char) : List Char → List (List Char)
  | [] => [[]]
  | c :: cs =>
    let r := splitOnChar sep cs
    if c == sep then [] :: r
    else
      match r with
      | [] => [[c]]
      | h :: t => (c :: h) :: t

/-- Drop the leading and trailing Go-regexp whitespace of a character
list. On every string accepted by `isCorrect` this also models Go's
`strings.TrimSpace` exactly, because the accepted language is
`\s* core \s*` and `core` neither starts nor ends with any Unicode
space. -/
def trimGoChars (cs : List Char) : List Char :=
  ((cs.dropWhile isGoSpace).reverse.dropWhile isGoSpace).reverse

/-- The part of `VersionPattern` before the first dash,
`[0-9]+(\.[0-9a-zA-Z]+)*`: dot-separated chunks, the first all digits,
the rest alphanumeric, all nonempty. -/
def validPre (cs : List Char) : Bool :=
  match splitOnChar '.' cs with
  | [] => false
  | c0 :: rest =>
    !c0.isEmpty && c0.all isDigitChar &&
      rest.all (fun c => !c.isEmpty && c.all isAlnumChar)

/-- The part of `VersionPattern` after the first dash,
`[0-9a-zA-Z-]+(\.[0-9a-zA-Z-]+)*`: dot-separated nonempty chunks of
alphanumerics and dashes. -/
def validDashPart (cs : List Char) : Bool :=
  (splitOnChar '.' cs).all
    (fun c => !c.isEmpty && c.all (fun ch => isAlnumChar ch || ch == '-'))

/-- `VersionPattern = [0-9]+(\.[0-9a-zA-Z]+)*(-[0-9a-zA-Z-]+(\.[0-9a-zA-Z-]+)*)?`.
Since the pre part contains no dash, the first dash (when present) starts
the optional dash group. -/
def validCore (cs : List Char) : Bool :=
  let pre := cs.takeWhile (fun c => !(c == '-'))
  match cs.dropWhile (fun c => !(c == '-')) with
  | [] => validPre pre
  | _ :: tail => validPre pre && validDashPart tail

/-- A parsed version value; the single field is the Go struct's
`version` string (part_000, lines 52-54). -/
structure Version where
  version : String
deriving DecidableEq, Repr

/-- Go `Version()` getter (part_000, lines 279-282). -/
def VersionStr (v : Version) : String :=
  v.version

/-- Go `isCorrect` (part_000, lines 126-131): anchored match of
`\A\s*(VersionPattern)?\s*\z`. Outer whitespace is stripped; the remainder
must be empty (the optional group) or match `VersionPattern` exactly. -/
def isCorrect (s : String) : Bool :=
  let t := trimGoChars s.data
  t.isEmpty || validCore t

/-- Go part_000 line 69 tests the input against the pattern `/\A\s*\z/`.
The pattern text includes the two literal slash characters, so a match
needs a `/` immediately before the start of the text, which no position
has: `MatchString` is constantly false (the file's own header comment,
lines 5-6, records that slash-wrapped patterns always fail to match). -/
def emptyCheckMatches (_s : String) : Bool :=
  false

/-- The replacement text `.pre.` of Go `strings.ReplaceAll(ver, "-", ".pre.")`. -/
def preMarker : List Char :=
  ['.', 'p', 'r', 'e', '.']

/-- Go `strings.ReplaceAll(ver, "-", ".pre.")`: the pattern is a single
character, so the replacement maps each dash pointwise. -/
def replaceDash (cs : List Char) : List Char :=
  (cs.map (fun c => if c == '-' then preMarker else [c])).flatten

/-- Go `New` (part_000, lines 62-79): validate, apply the (never firing)
empty-string check, trim, rewrite dashes. `none` models the error
return. -/
def New (s : String) : Option Version :=
  if !isCorrect s then none
  else
    let ver := if emptyCheckMatches s then "0" else s
    some ⟨⟨replaceDash (trimGoChars ver.data)⟩⟩

/-- Go `New2` (part_000, lines 82-89): `New` with the error collapsed to nil. -/
def New2 (s : String) : Option Version :=
  New s

/-- The maximal runs matched by `[0-9]+|[a-zA-Z]+`, left to right, other
characters skipped: Go `FindAllString` on that pattern. -/
def segsGo : List Char → List (List Char)
  | [] => []
  | c :: cs =>
    let r := segsGo cs
    if isDigitChar c then
      match cs, r with
      | c2 :: _, run :: rest =>
        if isDigitChar c2 then (c :: run) :: rest else [c] :: r
      | _, _ => [c] :: r
    else if isAlphaChar c then
      match cs, r with
      | c2 :: _, run :: rest =>
        if isAlphaChar c2 then (c :: run) :: rest else [c] :: r
      | _, _ => [c] :: r
    else r

/-- Go `segments` (part_000, lines 134-141). -/
def segments (v : Version) : List String :=
  (segsGo v.version.data).map (fun cs => ⟨cs⟩)

/-- Exact decimal value of a digit run. -/
def parseNatDigits (cs : List Char) : Nat :=
  cs.foldl (fun a c => a * 10 + (c.toNat - 48)) 0

/-- Go `value, _ := strconv.Atoi(v)` with the error discarded: the value
on success, `0` on a parse error. -/
def goAtoiValue (s : String) : Nat :=
  if !s.data.isEmpty && s.data.all isDigitChar then parseNatDigits s.data else 0

/-- Go `strconv.Atoi` keeping the error: `none` models `err != nil`. -/
def atoiOpt (s : String) : Option Nat :=
  if !s.data.isEmpty && s.data.all isDigitChar then some (parseNatDigits s.data) else none

/-- The `stringStart` computation of Go `splitSegments` (part_000, lines
208-221): the index of the first segment containing a letter, except that
an initial value of `0` (no letter found, or the letter in segment 0) is
replaced by the segment count. -/
def stringStart (segs : List String) : Nat :=
  match segs.findIdx? (fun s => s.data.any isAlphaChar) with
  | some i => if i = 0 then segs.length else i
  | none => segs.length

/-- Go `splitSegments` (part_000, lines 208-227): numeric prefix and
alphanumeric suffix of the segment list. -/
def splitSegments (v : Version) : List String × List String :=
  let segs := segments v
  let ss := stringStart segs
  (segs.take ss, segs.drop ss)

/-- Go `canonicalSegments` (part_000, lines 239-277). Each run is
reversed, then elements are deleted from the front while they parse to
zero (the numeric run ignores the `Atoi` error, the string run stops at
it), then reversed back; this strips the zero-valued numeric tail of each
run. -/
def canonicalSegments (v : Version) : List String :=
  let p := splitSegments v
  let numerics := (p.1.reverse.dropWhile (fun s => goAtoiValue s == 0)).reverse
  let stringset := (p.2.reverse.dropWhile (fun s => atoiOpt s == some 0)).reverse
  numerics ++ stringset

/-- The two `reflect.Kind` values Go `extractKind` can produce. -/
inductive Kind where
  | int : Kind
  | str : Kind
deriving DecidableEq, Repr

/-- Go `extractKind` (part_000, lines 372-378): `String` when the segment
contains a letter, `Int` otherwise. -/
def extractKind (s : String) : Kind :=
  if s.data.any isAlphaChar then Kind.str else Kind.int

/-- One position of the `Compare` loop (part_000, lines 341-364): `none`
means the loop continues with the next position, `some c` means `Compare`
returns `c`. Note that two distinct numeric segments of equal value
(for example `0` and `00`) fall through to `-1`, exactly as in the
source. -/
def posCompare (li ri : String) : Option Int :=
  if li == ri then none
  else
    match extractKind li, extractKind ri with
    | Kind.str, Kind.int => some (-1)
    | Kind.int, Kind.str => some 1
    | Kind.str, Kind.str => none
    | Kind.int, Kind.int =>
      if goAtoiValue li > goAtoiValue ri then some 1 else some (-1)

/-- The tail of the `Compare` loop once the left side is exhausted: the
left entry is the padding `"0"` at every remaining position. -/
def cmpPadLeft : List String → Int
  | [] => 0
  | r :: rs =>
    match posCompare "0" r with
    | some c => c
    | none => cmpPadLeft rs

/-- The `Compare` loop (part_000, lines 326-365): exactly
`max lsz rsz` positions, the shorter side padded with `"0"`. -/
def cmpSegs : List String → List String → Int
  | [], r => cmpPadLeft r
  | l :: ls, r =>
    match posCompare l (r.headD "0") with
    | some c => c
    | none => cmpSegs ls r.tail

/-- Go `Compare` (part_000, lines 305-368): equal raw strings or equal
canonical segment lists give `0`, otherwise the positional loop decides
(`strArraysEqual` is exactly list equality). -/
def Compare (v o : Version) : Int :=
  let l := canonicalSegments v
  let r := canonicalSegments o
  if v.version == o.version || l == r then 0 else cmpSegs l r

/-- Go `Eql` (part_000, lines 176-178): raw string equality. -/
def Eql (v o : Version) : Bool :=
  v.version == o.version

/-- Go `IsPrerelease` (part_000, lines 145-147): the canonical string
contains a letter. -/
def IsPrerelease (v : Version) : Bool :=
  v.version.data.any isAlphaChar

/-- The truncation loop shared by `Bump`, `Release` and
`ApproximateRecommendation` (part_000, lines 98-102): it ranges over the
original segment slice and re-slices `segments[0:i]` at every index `i`
holding a letter. Because Go re-slicing reaches through the shared
backing array up to its capacity, each assignment restores the prefix of
the ORIGINAL list of length `i`, so the loop ends with the prefix up to
the last letter segment (not the first). -/
def truncLoop (segs : List String) : List String :=
  match segs.reverse.findIdx? (fun s => s.data.any isAlphaChar) with
  | none => segs
  | some i => segs.take (segs.length - 1 - i)

/-- Outcome of Go `Bump` (part_000, lines 95-124): `crash` models a panic
(the explicit `panic` on `Atoi` failure, or the index panic on an empty
segment list), `fail` the error return from `New`, `ok` the success. -/
inductive BumpResult where
  | crash : BumpResult
  | fail : BumpResult
  | ok : Version → BumpResult
deriving DecidableEq, Repr

/-- Go `Bump` (part_000, lines 95-124): truncate at the last letter
segment, drop the final segment when more than one remains, increment the
new final segment, rebuild. -/
def Bump (v : Version) : BumpResult :=
  let segs := truncLoop (segments v)
  let segs := if segs.length > 1 then segs.dropLast else segs
  match segs.getLast? with
  | none => BumpResult.crash
  | some lastSeg =>
    match atoiOpt lastSeg with
    | none => BumpResult.crash
    | some n =>
      match New (String.intercalate "." (segs.dropLast ++ [Nat.repr (n + 1)])) with
      | none => BumpResult.fail
      | some w => BumpResult.ok w

/-- Go `Release` (part_000, lines 151-172): a non-prerelease returns
itself, otherwise the truncated segment list is rejoined and reparsed
(`none` models the nil return when `New` fails). -/
def Release (v : Version) : Option Version :=
  if !IsPrerelease v then some v
  else New (String.intercalate "." (truncLoop (segments v)))

end GoVersion

namespace GoReq

open GoVersion

/-- One `operator, version` pair: Go `RequirementSpecifier`
(part_001, lines 957-960). -/
structure Specifier where
  op : String
  ver : GoVersion.Version
deriving DecidableEq, Repr

/-- Go `Ops` (part_001, lines 924-932), in the source order; the comment
there notes the order matters, so that `>=` is found before `>`. -/
def OpsList : List String :=
  ["!=", ">=", "<=", "~>", ">", "<", "="]

/-- Go `defaultRequirement` (part_001, lines 963-966): operator `>=` with
`version.New2("0")`, which yields the version value `0`. -/
def defaultRequirement : Specifier :=
  ⟨">=", ⟨"0"⟩⟩

/-- Go `defaultPrereleaseRequirement` (part_001, lines 968-971): operator
`>=` with `version.New2("0.a")`, which yields the version value `0.a`. -/
def defaultPrereleaseRequirement : Specifier :=
  ⟨">=", ⟨"0.a"⟩⟩

/-- Whether `pat` is an initial run of `s`. -/
def leadsWith : List Char → List Char → Bool
  | [], _ => true
  | _ :: _, [] => false
  | a :: as2, b :: bs => a == b && leadsWith as2 bs

/-- Index of the first occurrence of `pat` as a contiguous run of `s`:
Go `strings.Contains` / first-occurrence search. -/
def findSubstrIdx (pat : List Char) : List Char → Option Nat
  | [] => if pat.isEmpty then some 0 else none
  | c :: cs =>
    if leadsWith pat (c :: cs) then some 0
    else (findSubstrIdx pat cs).map (fun i => i + 1)

/-- Go `strings.Replace(s, pat, "", 1)`: remove the first occurrence of
`pat`, leave `s` unchanged when there is none. -/
def removeFirst (pat s : List Char) : List Char :=
  match findSubstrIdx pat s with
  | none => s
  | some i => s.take i ++ s.drop (i + pat.length)

/-- Whether the anchored requirement regexp
`\A\s*(!=|>=|<=|~>|>|<|=)?\s*(VersionPattern)\s*\z` (part_001, line 945)
matches. `MatchString` only asks for the existence of a match, so the
alternation order is irrelevant here: after trimming outer whitespace the
text is a version core, optionally preceded by an operator token and
whitespace (the operator characters and the core characters are
disjoint). -/
def reqMatches (s : String) : Bool :=
  let t := trimGoChars s.data
  validCore t ||
    OpsList.any (fun op =>
      leadsWith op.data t &&
        validCore ((t.drop op.data.length).dropWhile isGoSpace))

/-- Go `parse` (part_001, lines 1005-1053). After the regexp gate, the
`parts` pair is built from the FIRST element of `Ops` occurring anywhere
in the input (removing its first occurrence, whitespace kept); when no
operator token occurs, `parts` stays shorter than two and the function
errors. The subsequent operator-table lookup always succeeds for a found
token, and `>= 0` / `>= 0.a` return the default singletons. `none`
models every error return. -/
def parse (requirement : String) : Option Specifier :=
  if !reqMatches requirement then none
  else
    match OpsList.find? (fun op => (findSubstrIdx op.data requirement.data).isSome) with
    | none => none
    | some op =>
      let rest : String := ⟨removeFirst op.data requirement.data⟩
      if op == ">=" && rest == "0" then some defaultRequirement
      else if op == ">=" && rest == "0.a" then some defaultPrereleaseRequirement
      else
        match GoVersion.New rest with
        | none => none
        | some v => some ⟨op, v⟩

/-- Go `HasNone` (part_001, lines 1075-1081): a single specifier whose
operator equals the default requirement's operator and whose version
compares equal to the prerelease default's version. (The earlier copy in
src/requirement/requirement.go instead compares the version pointer with
the non-prerelease default's.) -/
def HasNone (rs : List Specifier) : Bool :=
  match rs with
  | [r] =>
    r.op == defaultRequirement.op &&
      GoVersion.Compare r.ver defaultPrereleaseRequirement.ver == 0
  | _ => false

/-- Go `IsSpecific` (part_001, lines 1127-1138, identical in
src/requirement/requirement.go lines 216-227): more than one specifier,
or a single specifier whose operator is neither `>` nor `>=`; an empty
set is specific. -/
def IsSpecific (rs : List Specifier) : Bool :=
  match rs with
  | [] => true
  | [r] => !(r.op == ">") && !(r.op == ">=")
  | _ :: _ :: _ => true

/-- The inner loop of Go `Concat` (part_001, lines 1057-1068): for one
new constraint string, iterate over the snapshot of the specifier list
taken when the inner loop started, parsing the string once per snapshot
element; `none` models the nil return on a parse error, duplicate
appends are kept as in the source. -/
def concatStep (snapshot : List Specifier) (cur : List Specifier) (req : String) :
    Option (List Specifier) :=
  match snapshot with
  | [] => some cur
  | registered :: rest =>
    match parse req with
    | none => none
    | some splitReq =>
      if registered.op == splitReq.op ||
          GoVersion.Compare splitReq.ver registered.ver == 0 then
        concatStep rest cur req
      else
        concatStep rest (cur ++ [splitReq]) req

/-- Go `Concat` (part_001, lines 1055-1072): fold `concatStep` over the
argument strings; each argument's inner loop snapshots the list as it
stood when that argument was reached. -/
def Concat (rs : List Specifier) (args : List String) : Option (List Specifier) :=
  match args with
  | [] => some rs
  | a :: rest =>
    match concatStep rs rs a with
    | none => none
    | some rs2 => Concat rs2 rest

end GoReq

open GoVersion GoReq

/-- Helper: when both entries hold a letter, the positional comparison
never decides, whatever the entries are. -/
theorem posCompare_str_str (li ri : String) (h1 : extractKind li = Kind.str)
    (h2 : extractKind ri = Kind.str) : posCompare li ri = none := by
  unfold posCompare
  split
  · rfl
  · rw [h1, h2]

/-- Helper: an undecided position makes the comparison loop move to the
next position. -/
theorem cmpSegs_cons_of_tie (li ri : String) (ls rs : List String)
    (h : posCompare li ri = none) :
    cmpSegs (li :: ls) (ri :: rs) = cmpSegs ls rs := by
  have hd : cmpSegs (li :: ls) (ri :: rs) =
      (match posCompare li ri with
       | some c => c
       | none => cmpSegs ls rs) := rfl
  rw [hd, h]

/-- The embedding reproduces the repository's own test expectations
(Test_New, Test_Segments, Test_CanonicalSegments, Test_IsCorrect,
Test_Bump, Test_Release, Test_Compare, requirement Test_New). -/
theorem embedding_matches_repo_tests :
    New "1.5-3" = some ⟨"1.5.pre.3"⟩
    ∧ segments ⟨"1.5.pre.3"⟩ = ["1", "5", "pre", "3"]
    ∧ New "2.3-0-0" = some ⟨"2.3.pre.0.pre.0"⟩
    ∧ canonicalSegments ⟨"2.3.pre.0.pre.0"⟩ = ["2", "3", "pre", "0", "pre"]
    ∧ isCorrect "1." = false
    ∧ isCorrect "1.5-" = false
    ∧ New "1.1.13.4-3" = some ⟨"1.1.13.4.pre.3"⟩
    ∧ Bump ⟨"1.1.13.4.pre.3"⟩ = BumpResult.ok ⟨"1.1.14"⟩
    ∧ Bump ⟨"5.3.1.b.2"⟩ = BumpResult.ok ⟨"5.4"⟩
    ∧ Release ⟨"1.2.1.pre.2"⟩ = some ⟨"1.2.1"⟩
    ∧ Compare ⟨"1.1"⟩ ⟨"1.0"⟩ = 1
    ∧ GoReq.parse ">= 1.3.5" = some ⟨">=", ⟨"1.3.5"⟩⟩ := by
  decide

/-- Claim C1: the claim says `Compare` induces the newest-to-oldest order
`1.0, 1.0.b1, 1.0.a.2, 0.9`, in particular
`Compare(1.0.b1, 1.0.a.2) = 1`. The code instead returns `-1` there: the
alphabetic pair `b`/`a` is passed over as a tie and the numeric pair
`1`/`2` decides. The other two claimed comparisons do hold. This
contradicts the ordering stated in the `Version` doc comment of the
source itself (part_000, lines 44-49). -/
theorem c1_compare_order_code_bug :
    New "1.0.b1" = some ⟨"1.0.b1"⟩
    ∧ New "1.0.a.2" = some ⟨"1.0.a.2"⟩
    ∧ New "1.0" = some ⟨"1.0"⟩
    ∧ New "0.9" = some ⟨"0.9"⟩
    ∧ Compare ⟨"1.0.b1"⟩ ⟨"1.0.a.2"⟩ = -1
    ∧ Compare ⟨"1.0"⟩ ⟨"1.0.b1"⟩ = 1
    ∧ Compare ⟨"1.0.a.2"⟩ ⟨"0.9"⟩ = 1 := by
  decide

/-- Claim C2: the claim says empty or all-whitespace input constructs a
value whose canonical string is `0`. Construction does succeed, but the
slash-wrapped pattern on part_000 line 69 never matches, so the
`ver = "0"` branch never runs: the stored string is empty, `Version()`
returns the empty string, although the value still compares equal to
version `0` through canonical segments. -/
theorem c2_empty_not_zero_code_bug :
    New "" = some ⟨""⟩
    ∧ New "   " = some ⟨""⟩
    ∧ emptyCheckMatches "" = false
    ∧ VersionStr ⟨""⟩ = ""
    ∧ ("" : String) ≠ "0"
    ∧ Compare ⟨""⟩ ⟨"0"⟩ = 0 := by
  decide

/-- Claim C3: a position at which both padded canonical segments hold a
letter and differ is passed over as a tie and the loop moves to the next
position; consequently the distinct valid versions `1.0.a` and `1.0.b`,
whose canonical segments differ only in that alphabetic position,
compare equal. -/
theorem c3_alpha_tie :
    (∀ (li ri : String) (ls rs : List String),
        extractKind li = Kind.str → extractKind ri = Kind.str → li ≠ ri →
        posCompare li ri = none ∧ cmpSegs (li :: ls) (ri :: rs) = cmpSegs ls rs)
    ∧ New "1.0.a" = some ⟨"1.0.a"⟩
    ∧ New "1.0.b" = some ⟨"1.0.b"⟩
    ∧ Version.mk "1.0.a" ≠ Version.mk "1.0.b"
    ∧ Compare ⟨"1.0.a"⟩ ⟨"1.0.b"⟩ = 0 := by
  refine ⟨?_, by decide, by decide, by decide, by decide⟩
  intro li ri ls rs h1 h2 _
  have hp := posCompare_str_str li ri h1 h2
  exact ⟨hp, cmpSegs_cons_of_tie li ri ls rs hp⟩

/-- Witness for C3 at the concrete alphabetic pair `a`, `b`. -/
theorem c3_alpha_tie_witness :
    posCompare "a" "b" = none ∧ cmpSegs ["a"] ["b"] = cmpSegs [] [] :=
  c3_alpha_tie.1 "a" "b" [] [] (by decide) (by decide) (by decide)

/-- Claim C4: `1` and `1.0` compare equal yet are not `Eql`; `Eql` is
exactly string equality of the canonical strings, and `Eql` implies
`Compare = 0`, so `Eql` is strictly finer than `Compare`-equality. -/
theorem c4_eql_finer_than_compare :
    (New "1" = some ⟨"1"⟩
      ∧ New "1.0" = some ⟨"1.0"⟩
      ∧ Compare ⟨"1"⟩ ⟨"1.0"⟩ = 0
      ∧ Eql ⟨"1"⟩ ⟨"1.0"⟩ = false)
    ∧ (∀ u v : Version, Eql u v = (u.version == v.version))
    ∧ (∀ u v : Version, Eql u v = true → Compare u v = 0) := by
  refine ⟨by decide, fun u v => rfl, ?_⟩
  intro u v h
  have h2 : u.version = v.version := by simpa [Eql] using h
  simp [Compare, h2]

/-- Witness for C4's implication at a concrete pair. -/
theorem c4_eql_finer_than_compare_witness :
    Eql ⟨"1.0"⟩ ⟨"1.0"⟩ = true ∧ Compare ⟨"1.0"⟩ ⟨"1.0"⟩ = 0 :=
  ⟨by decide, c4_eql_finer_than_compare.2.2 ⟨"1.0"⟩ ⟨"1.0"⟩ (by decide)⟩

/-- Claim C5: the claim says `Bump` never reaches its panic branch on a
grammar-valid version, naming `1.a.2.b.3` in particular. The code does
panic there: the truncation loop re-slices through the shared backing
array, so the segment list ends as the prefix up to the LAST letter
segment, `["1","a","2"]`; dropping the final segment leaves `"a"` last,
`Atoi` fails, and the explicit panic fires. -/
theorem c5_bump_panics_on_valid_input :
    isCorrect "1.a.2.b.3" = true
    ∧ New "1.a.2.b.3" = some ⟨"1.a.2.b.3"⟩
    ∧ truncLoop (segments ⟨"1.a.2.b.3"⟩) = ["1", "a", "2"]
    ∧ Bump ⟨"1.a.2.b.3"⟩ = BumpResult.crash := by
  decide

/-- Claim C6: the claim says `Release` keeps exactly the segments
strictly before the first letter segment, so its result is never a
prerelease. On `1.a.2.b.3` the code instead truncates at the last letter
segment (same re-slicing as in `Bump`) and returns `1.a.2`, which still
contains a letter and is itself a prerelease, not the claimed `1`. -/
theorem c6_release_keeps_alpha_segments :
    New "1.a.2.b.3" = some ⟨"1.a.2.b.3"⟩
    ∧ IsPrerelease ⟨"1.a.2.b.3"⟩ = true
    ∧ Release ⟨"1.a.2.b.3"⟩ = some ⟨"1.a.2"⟩
    ∧ IsPrerelease ⟨"1.a.2"⟩ = true
    ∧ Version.mk "1.a.2" ≠ Version.mk "1" := by
  decide

/-- Claim C7: the claim says a bare version string such as `1.3.5`
parses as a specifier with operator `=`. The requirement regexp does
accept it (the operator group is optional), but `parse` then scans the
input for an operator token, finds none, fails the two-part check and
returns an error, contradicting its own documented example
`parse("1.0") => ["=", Version("1.0")]` in
src/requirement/requirement.go lines 105-107. -/
theorem c7_bare_version_requirement_rejected :
    reqMatches "1.3.5" = true ∧ GoReq.parse "1.3.5" = none := by
  decide

/-- Claim C8: `HasNone` is true exactly on a one-element set whose
specifier has operator `>=` (the default requirement's operator) and a
version comparing equal to the prerelease default's version `0.a`. -/
theorem c8_hasnone_iff :
    defaultPrereleaseRequirement.ver = Version.mk "0.a"
    ∧ defaultRequirement.op = ">="
    ∧ ∀ rs : List Specifier,
        HasNone rs = true ↔
          ∃ r : Specifier, rs = [r] ∧ r.op = ">=" ∧
            Compare r.ver (Version.mk "0.a") = 0 := by
  refine ⟨rfl, rfl, ?_⟩
  intro rs
  cases rs with
  | nil =>
    constructor
    · intro h
      exact absurd h (by decide)
    · rintro ⟨r, hr, -, -⟩
      exact absurd hr (by simp)
  | cons a t =>
    cases t with
    | nil =>
      constructor
      · intro h
        rw [show HasNone [a] =
            (a.op == ">=" && (Compare a.ver (Version.mk "0.a") == 0)) from rfl,
          Bool.and_eq_true, beq_iff_eq, beq_iff_eq] at h
        exact ⟨a, rfl, h.1, h.2⟩
      · rintro ⟨r, hr, h1, h2⟩
        have ha : a = r := by
          injection hr
        subst ha
        rw [show HasNone [a] =
            (a.op == ">=" && (Compare a.ver (Version.mk "0.a") == 0)) from rfl,
          Bool.and_eq_true, beq_iff_eq, beq_iff_eq]
        exact ⟨h1, h2⟩
    | cons b t2 =>
      constructor
      · intro h
        exact absurd h (by simp [HasNone])
      · rintro ⟨r, hr, -, -⟩
        exact absurd hr (by simp)

/-- Witness for C8: the set holding exactly the prerelease-default pair
has none. -/
theorem c8_hasnone_iff_witness :
    HasNone [⟨">=", ⟨"0.a"⟩⟩] = true :=
  (c8_hasnone_iff.2.2 [⟨">=", ⟨"0.a"⟩⟩]).mpr
    ⟨⟨">=", ⟨"0.a"⟩⟩, rfl, rfl, by decide⟩

/-- Counterexample to claim C9. The claim says a single-specifier set is
specific exactly when the operator is neither `>` nor `<`. The code
tests `>` and `>=` instead: a single `>=` specifier (operator neither
`>` nor `<`) is NOT specific, and a single `<` specifier (operator in
the claim's excluded set) IS specific. -/
theorem c9_isspecific_cex :
    (IsSpecific [⟨">=", ⟨"1"⟩⟩] = false
      ∧ (">=" : String) ≠ ">" ∧ (">=" : String) ≠ "<")
    ∧ IsSpecific [⟨"<", ⟨"1"⟩⟩] = true := by
  decide

/-- Claim C9 as amended: `IsSpecific` is true exactly when the set has
more than one specifier, or is empty, or its single specifier's operator
is neither `>` nor `>=`. -/
theorem c9_isspecific_amended :
    ∀ rs : List Specifier,
      IsSpecific rs = true ↔
        (1 < rs.length ∨ rs = [] ∨
          ∃ r : Specifier, rs = [r] ∧ r.op ≠ ">" ∧ r.op ≠ ">=") := by
  intro rs
  cases rs with
  | nil =>
    simp [IsSpecific]
  | cons a t =>
    cases t with
    | nil =>
      constructor
      · intro h
        rw [show IsSpecific [a] = (!(a.op == ">") && !(a.op == ">=")) from rfl,
          Bool.and_eq_true, Bool.not_eq_true', beq_eq_false_iff_ne,
          Bool.not_eq_true', beq_eq_false_iff_ne] at h
        exact Or.inr (Or.inr ⟨a, rfl, h.1, h.2⟩)
      · rintro (h | h | ⟨r, hr, h1, h2⟩)
        · simp at h
        · exact absurd h (by simp)
        · have ha : a = r := by
            injection hr
          subst ha
          rw [show IsSpecific [a] = (!(a.op == ">") && !(a.op == ">=")) from rfl,
            Bool.and_eq_true, Bool.not_eq_true', beq_eq_false_iff_ne,
            Bool.not_eq_true', beq_eq_false_iff_ne]
          exact ⟨h1, h2⟩
    | cons b t2 =>
      constructor
      · intro _
        refine Or.inl ?_
        simp only [List.length_cons]
        omega
      · intro _
        rfl

/-- Witness for C9's amended statement at a single `=` specifier. -/
theorem c9_isspecific_amended_witness :
    IsSpecific [⟨"=", ⟨"1"⟩⟩] = true :=
  (c9_isspecific_amended [⟨"=", ⟨"1"⟩⟩]).mpr
    (Or.inr (Or.inr ⟨⟨"=", ⟨"1"⟩⟩, rfl, by decide, by decide⟩))

/-- Claim C10: starting from an empty specifier list, `Concat` never
parses any argument (the inner loop ranges over the existing specifiers,
of which there are none), so it returns the set unchanged and never the
nil failure sentinel, whatever the argument strings are. -/
theorem c10_concat_empty_noop :
    ∀ args : List String, Concat [] args = some [] := by
  intro args
  induction args with
  | nil => rfl
  | cons a t ih => exact ih
